import Mathlib

/-!
# Verification of the DocsGPT ingestion worker (`application/worker.py`)

Shallow embedding of the worker module.  External collaborators (HTTP
download/upload, the document loader, the chunker, the embedding sink, the
Mongo collections, object-id minting, clocks) are modelled as oracle fields of
an environment record; each worker is a pure function from that environment and
the current state (directories present, persisted records) to the final state,
a trace of the externally observable calls, and either a result value or the
exception that propagates (`Except`).

The archive extractor is modelled on a flat working directory (all archive
entries extract into the single job directory, which is the situation
`ingest_worker` produces): the directory is a list of named files, a zip
archive carries its parsed entry list, and `ok = false` marks a corrupt
archive (`zipfile.ZipFile` / `extractall` raises).  `os.walk` yields a
snapshot of the directory's file names taken when extraction of the enclosing
archive finished; files removed later by nested extraction are still in that
snapshot, and opening them then fails — exactly as in the source.
-/

namespace Worker

/-- Python `str.endswith(suffix)`, computed on the character lists. -/
def strEndsWith (s suffix : String) : Bool :=
  suffix.data.isSuffixOf s.data

/-- `os.path.join` for relative path segments. -/
def pjoin (parts : List String) : String :=
  String.intercalate "/" parts

/-- worker.py line 26. -/
def MIN_TOKENS : Nat := 150

/-- worker.py line 27. -/
def MAX_TOKENS : Nat := 1250

/-- worker.py line 28. -/
def RECURSION_DEPTH : Nat := 2

/-- A file in the flat working directory: a plain file, or a zip archive with
its parsed contents (`ok = false`: corrupt, extraction raises). -/
inductive ZFile where
  | plain (name : String)
  | zipA (name : String) (ok : Bool) (entries : List ZFile)

/-- The on-disk name of a file. -/
def ZFile.name : ZFile → String
  | .plain n => n
  | .zipA n _ _ => n

/-- Directory contents after `zip_ref.extractall(extract_to)` followed by
`os.remove(zip_path)` (worker.py lines 57-59), assuming extracted entry names
do not collide with names of files already present. -/
def afterExtract (fs : List ZFile) (zipName : String) (entries : List ZFile) :
    List ZFile :=
  fs.filter (fun f => !(f.name == zipName)) ++ entries

/-- Opening the file at a path: `zipfile.ZipFile(zip_path)` finds the first
file of that name, or raises (`none`) when the file is gone. -/
def lookupFile (fs : List ZFile) (zipName : String) : Option ZFile :=
  fs.find? (fun f => f.name == zipName)

/-- Outcome of a run of the extractor: the directory contents, the number of
`logging.warning` messages about the recursion depth (line 53), and the number
of `logging.error` messages about failed extractions (line 61). -/
structure ExtractOut where
  files : List ZFile
  warnings : Nat
  errors : Nat

mutual

/-- worker.py lines 42-70, `extract_zip_recursive(zip_path, extract_to,
current_depth=0, max_depth=5)`.  Returns without extracting (one warning) past
`max_depth`; extraction failure (missing or corrupt archive) logs one error
and abandons that branch; otherwise the archive is unpacked, the archive file
removed, and every `.zip` name in the directory snapshot is recursed on at
`current_depth + 1`. -/
def extract_zip_recursive (fs : List ZFile) (zip_path : String)
    (current_depth : Nat := 0) (max_depth : Nat := 5) : ExtractOut :=
  if _h : current_depth > max_depth then
    ⟨fs, 1, 0⟩
  else
    match lookupFile fs zip_path with
    | some (ZFile.zipA _ true entries) =>
      let fs1 := afterExtract fs zip_path entries
      walkFiles fs1 (fs1.map ZFile.name) (current_depth + 1) max_depth
    | _ => ⟨fs, 0, 1⟩
termination_by (max_depth + 1 - current_depth, 0)

/-- The `for root, dirs, files in os.walk(extract_to)` loop of worker.py lines
65-70, on the flat directory: `snapshot` is the list of file names seen by the
walk, every name ending in `.zip` is extracted recursively at depth `depth`,
and the outcomes are accumulated. -/
def walkFiles (fs : List ZFile) (snapshot : List String)
    (depth max_depth : Nat) : ExtractOut :=
  match snapshot with
  | [] => ⟨fs, 0, 0⟩
  | n :: rest =>
    if strEndsWith n ".zip" then
      let r := extract_zip_recursive fs n depth max_depth
      let r2 := walkFiles r.files rest depth max_depth
      ⟨r2.files, r.warnings + r2.warnings, r.errors + r2.errors⟩
    else
      walkFiles fs rest depth max_depth
termination_by (max_depth + 1 - depth, snapshot.length)

end

/-- A plain file whose name will not be mistaken for an archive. -/
def plainNonZip : ZFile → Bool
  | .plain p => !strEndsWith p ".zip"
  | .zipA _ _ _ => false

-- step lemmas ----------------------------------------------------------------

theorem extract_over (fs : List ZFile) (n : String) (cd md : Nat)
    (h : cd > md) : extract_zip_recursive fs n cd md = ⟨fs, 1, 0⟩ := by
  rw [extract_zip_recursive]
  simp [h]

theorem extract_ok (fs : List ZFile) (n : String) (cd md : Nat) (m : String)
    (es : List ZFile) (h : ¬ cd > md)
    (hl : lookupFile fs n = some (ZFile.zipA m true es)) :
    extract_zip_recursive fs n cd md =
      walkFiles (afterExtract fs n es) ((afterExtract fs n es).map ZFile.name)
        (cd + 1) md := by
  rw [extract_zip_recursive]
  simp [h, hl]

theorem extract_missing (fs : List ZFile) (n : String) (cd md : Nat)
    (h : ¬ cd > md) (hl : lookupFile fs n = none) :
    extract_zip_recursive fs n cd md = ⟨fs, 0, 1⟩ := by
  rw [extract_zip_recursive]
  simp [h, hl]

theorem extract_corrupt (fs : List ZFile) (n : String) (cd md : Nat)
    (m : String) (es : List ZFile) (h : ¬ cd > md)
    (hl : lookupFile fs n = some (ZFile.zipA m false es)) :
    extract_zip_recursive fs n cd md = ⟨fs, 0, 1⟩ := by
  rw [extract_zip_recursive]
  simp [h, hl]

theorem walk_nil (fs : List ZFile) (d md : Nat) :
    walkFiles fs [] d md = ⟨fs, 0, 0⟩ := by
  rw [walkFiles]

theorem walk_cons_zip (fs : List ZFile) (n : String) (rest : List String)
    (d md : Nat) (h : strEndsWith n ".zip" = true) :
    walkFiles fs (n :: rest) d md =
      ⟨(walkFiles (extract_zip_recursive fs n d md).files rest d md).files,
       (extract_zip_recursive fs n d md).warnings +
         (walkFiles (extract_zip_recursive fs n d md).files rest d md).warnings,
       (extract_zip_recursive fs n d md).errors +
         (walkFiles (extract_zip_recursive fs n d md).files rest d md).errors⟩ := by
  rw [walkFiles]
  simp [h]

theorem walk_cons_skip (fs : List ZFile) (n : String) (rest : List String)
    (d md : Nat) (h : strEndsWith n ".zip" = false) :
    walkFiles fs (n :: rest) d md = walkFiles fs rest d md := by
  rw [walkFiles]
  simp [h]

theorem walk_skipPrefix (xs : List String) (ys : List String) (fs : List ZFile)
    (d md : Nat) (hx : xs.all (fun x => !strEndsWith x ".zip") = true) :
    walkFiles fs (xs ++ ys) d md = walkFiles fs ys d md := by
  induction xs with
  | nil => simp
  | cons x xs ih =>
    simp only [List.all_cons, Bool.and_eq_true, Bool.not_eq_true'] at hx
    rw [List.cons_append, walk_cons_skip fs x (xs ++ ys) d md hx.1]
    exact ih (by simp [hx.2])

theorem walk_skipAll (xs : List String) (fs : List ZFile) (d md : Nat)
    (hx : xs.all (fun x => !strEndsWith x ".zip") = true) :
    walkFiles fs xs d md = ⟨fs, 0, 0⟩ := by
  have := walk_skipPrefix xs [] fs d md hx
  simpa [walk_nil] using this

def chainZip : String → List String → List (String × List String) → ZFile
  | n, ps, [] => .zipA n true (ps.map ZFile.plain)
  | n, ps, (n2, ps2) :: rest => .zipA n true (ps.map ZFile.plain ++ [chainZip n2 ps2 rest])

def chainOk : List String → List (String × List String) → Bool
  | ps, [] => ps.all (fun p => !strEndsWith p ".zip")
  | ps, (n2, ps2) :: rest =>
    ps.all (fun p => !strEndsWith p ".zip") && strEndsWith n2 ".zip" && chainOk ps2 rest

def chainPartial : Nat → List String → List (String × List String) → List ZFile
  | _, ps, [] => ps.map ZFile.plain
  | 0, ps, (n2, ps2) :: rest => ps.map ZFile.plain ++ [chainZip n2 ps2 rest]
  | b + 1, ps, (_, ps2) :: rest => ps.map ZFile.plain ++ chainPartial b ps2 rest

-- name helpers ---------------------------------------------------------------

theorem plainNonZip_name_ne (f : ZFile) (hf : plainNonZip f = true) (n : String)
    (hn : strEndsWith n ".zip" = true) : (f.name == n) = false := by
  cases f with
  | plain p =>
    simp only [plainNonZip, Bool.not_eq_true'] at hf
    simp only [ZFile.name, beq_eq_false_iff_ne, ne_eq]
    intro h
    rw [h, hn] at hf
    cases hf
  | zipA m ok es => simp [plainNonZip] at hf

theorem lookupFile_append_zip (others : List ZFile)
    (ho : others.all plainNonZip = true) (n : String) (ok : Bool)
    (es : List ZFile) (hn : strEndsWith n ".zip" = true) :
    lookupFile (others ++ [ZFile.zipA n ok es]) n =
      some (ZFile.zipA n ok es) := by
  induction others with
  | nil => simp [lookupFile, List.find?, ZFile.name]
  | cons f fs ih =>
    simp only [List.all_cons, Bool.and_eq_true] at ho
    have hne := plainNonZip_name_ne f ho.1 n hn
    simp only [List.cons_append, lookupFile, List.find?, hne]
    exact ih ho.2

theorem afterExtract_append (others : List ZFile)
    (ho : others.all plainNonZip = true) (n : String) (ok : Bool)
    (es entries : List ZFile) (hn : strEndsWith n ".zip" = true) :
    afterExtract (others ++ [ZFile.zipA n ok es]) n entries =
      others ++ entries := by
  unfold afterExtract
  rw [List.filter_append]
  have h1 : others.filter (fun f => !(f.name == n)) = others := by
    apply List.filter_eq_self.mpr
    intro f hf
    have hp : plainNonZip f = true := by
      rw [List.all_eq_true] at ho
      exact ho f hf
    simp [plainNonZip_name_ne f hp n hn]
  have h2 : [ZFile.zipA n ok es].filter (fun f => !(f.name == n)) = [] := by
    simp [List.filter, ZFile.name]
  rw [h1, h2, List.append_nil]

theorem map_name_plains (ps : List String) :
    (ps.map ZFile.plain).map ZFile.name = ps := by
  induction ps with
  | nil => rfl
  | cons p ps ih => simp [ZFile.name, ih]

theorem all_plainNonZip_plains (ps : List String)
    (hp : ps.all (fun p => !strEndsWith p ".zip") = true) :
    (ps.map ZFile.plain).all plainNonZip = true := by
  induction ps with
  | nil => rfl
  | cons p ps ih =>
    simp only [List.all_cons, Bool.and_eq_true] at hp
    simp only [List.map_cons, List.all_cons, Bool.and_eq_true]
    exact ⟨by simp [plainNonZip, hp.1], ih hp.2⟩

theorem names_nonZip (others : List ZFile)
    (ho : others.all plainNonZip = true) :
    (others.map ZFile.name).all (fun x => !strEndsWith x ".zip") = true := by
  induction others with
  | nil => rfl
  | cons f fs ih =>
    simp only [List.all_cons, Bool.and_eq_true] at ho
    simp only [List.map_cons, List.all_cons, Bool.and_eq_true]
    refine ⟨?_, ih ho.2⟩
    cases f with
    | plain p => simpa [plainNonZip, ZFile.name] using ho.1
    | zipA m ok es => simp [plainNonZip] at ho

theorem chainZip_name (n : String) (ps : List String)
    (levels : List (String × List String)) : (chainZip n ps levels).name = n := by
  cases levels with
  | nil => rfl
  | cons hd rest => cases hd; rfl

theorem extract_chain (levels : List (String × List String)) :
    ∀ (n : String) (ps : List String) (others : List ZFile) (cd md : Nat),
    others.all plainNonZip = true →
    strEndsWith n ".zip" = true →
    chainOk ps levels = true →
    cd ≤ md →
    extract_zip_recursive (others ++ [chainZip n ps levels]) n cd md =
      ⟨others ++ chainPartial (md - cd) ps levels,
       if levels.length ≤ md - cd then 0 else 1, 0⟩ := by
  induction levels with
  | nil =>
    intro n ps others cd md ho hn hc hcd
    rw [show chainZip n ps [] = ZFile.zipA n true (ps.map ZFile.plain) from rfl]
    rw [extract_ok _ _ _ _ n (ps.map ZFile.plain) (by omega)
      (lookupFile_append_zip others ho n true (ps.map ZFile.plain) hn)]
    rw [afterExtract_append others ho n true _ _ hn]
    rw [List.map_append, map_name_plains]
    rw [walk_skipAll _ _ _ _ (by
      rw [List.all_append]
      rw [Bool.and_eq_true]
      exact ⟨names_nonZip others ho, by simpa [chainOk] using hc⟩)]
    simp [chainPartial]
  | cons hd rest ih =>
    obtain ⟨n2, ps2⟩ := hd
    intro n ps others cd md ho hn hc hcd
    simp only [chainOk, Bool.and_eq_true] at hc
    obtain ⟨⟨hp, hn2⟩, hc2⟩ := hc
    have hall : (others ++ ps.map ZFile.plain).all plainNonZip = true := by
      rw [List.all_append]
      rw [Bool.and_eq_true]
      exact ⟨ho, all_plainNonZip_plains ps hp⟩
    rw [show chainZip n ps ((n2, ps2) :: rest) =
      ZFile.zipA n true (ps.map ZFile.plain ++ [chainZip n2 ps2 rest]) from rfl]
    rw [extract_ok _ _ _ _ n _ (by omega)
      (lookupFile_append_zip others ho n true _ hn)]
    rw [afterExtract_append others ho n true _ _ hn]
    rw [List.map_append, List.map_append, map_name_plains]
    rw [show [chainZip n2 ps2 rest].map ZFile.name = [n2] by
      simp [chainZip_name]]
    rw [show others.map ZFile.name ++ (ps ++ [n2]) =
      (others.map ZFile.name ++ ps) ++ [n2] by simp [List.append_assoc]]
    rw [walk_skipPrefix _ _ _ _ _ (by
      rw [List.all_append]
      rw [Bool.and_eq_true]
      exact ⟨names_nonZip others ho, hp⟩)]
    rw [walk_cons_zip _ _ _ _ _ hn2, walk_nil]
    rw [show others ++ (ps.map ZFile.plain ++ [chainZip n2 ps2 rest]) =
      (others ++ ps.map ZFile.plain) ++ [chainZip n2 ps2 rest] by
        simp [List.append_assoc]]
    by_cases hlt : cd + 1 ≤ md
    · rw [ih n2 ps2 (others ++ ps.map ZFile.plain) (cd + 1) md hall hn2 hc2 hlt]
      have hb : md - cd = (md - (cd + 1)) + 1 := by omega
      rw [hb]
      rw [show chainPartial ((md - (cd + 1)) + 1) ps ((n2, ps2) :: rest) =
        ps.map ZFile.plain ++ chainPartial (md - (cd + 1)) ps2 rest from rfl]
      by_cases hw : rest.length ≤ md - (cd + 1)
      · simp [hw, List.append_assoc, Nat.succ_le_succ hw]
      · have hw2 : ¬ (rest.length + 1 ≤ (md - (cd + 1)) + 1) := by omega
        simp only [List.length_cons]
        simp [hw, hw2, List.append_assoc]
    · have hcdmd : cd = md := by omega
      rw [extract_over _ _ _ _ (by omega)]
      have hb : md - cd = 0 := by omega
      rw [hb]
      rw [show chainPartial 0 ps ((n2, ps2) :: rest) =
        ps.map ZFile.plain ++ [chainZip n2 ps2 rest] from rfl]
      have hw2 : ¬ (rest.length + 1 ≤ 0) := by omega
      simp only [List.length_cons]
      simp [hw2, List.append_assoc]

/-- Is the file a plain (non-archive) file? -/
def ZFile.isPlain : ZFile → Bool
  | .plain _ => true
  | .zipA _ _ _ => false

theorem all_isPlain_plains (ps : List String) :
    (ps.map ZFile.plain).all ZFile.isPlain = true := by
  induction ps with
  | nil => rfl
  | cons p ps ih => simp [ZFile.isPlain, ih]

/-- A chain whose length fits in the budget flattens to plain files only. -/
theorem chainPartial_all_plain (levels : List (String × List String)) :
    ∀ (b : Nat) (ps : List String), levels.length ≤ b →
    (chainPartial b ps levels).all ZFile.isPlain = true := by
  induction levels with
  | nil =>
    intro b ps _
    cases b <;> exact all_isPlain_plains ps
  | cons hd rest ih =>
    obtain ⟨n2, ps2⟩ := hd
    intro b ps hb
    cases b with
    | zero => simp at hb
    | succ b =>
      rw [show chainPartial (b + 1) ps ((n2, ps2) :: rest) =
        ps.map ZFile.plain ++ chainPartial b ps2 rest from rfl]
      rw [List.all_append, Bool.and_eq_true]
      exact ⟨all_isPlain_plains ps, ih b ps2 (by simpa using hb)⟩

mutual

/-- Number of archive levels of a file: `0` for a plain file, and for an
archive one more than the deepest archive among its entries.  An archive
whose nested archives reach nesting level `d` (the archive itself being
level `0`) has `zipLevels = d + 1`. -/
def zipLevels : ZFile → Nat
  | .plain _ => 0
  | .zipA _ _ es => 1 + zipLevelsList es

def zipLevelsList : List ZFile → Nat
  | [] => 0
  | f :: fs => max (zipLevels f) (zipLevelsList fs)

end

theorem zipLevelsList_plains (ps : List String) :
    zipLevelsList (ps.map ZFile.plain) = 0 := by
  induction ps with
  | nil => rw [List.map_nil, zipLevelsList]
  | cons p ps ih =>
    rw [List.map_cons, zipLevelsList, ih]
    rw [zipLevels]
    simp

theorem zipLevelsList_append (xs ys : List ZFile) :
    zipLevelsList (xs ++ ys) = max (zipLevelsList xs) (zipLevelsList ys) := by
  induction xs with
  | nil =>
    rw [List.nil_append, zipLevelsList]
    simp
  | cons f fs ih =>
    rw [List.cons_append, zipLevelsList, ih, zipLevelsList]
    rw [Nat.max_assoc]

/-- The chain archive `chainZip n ps levels` nests archives down to level
`levels.length`. -/
theorem zipLevels_chain (levels : List (String × List String)) :
    ∀ (n : String) (ps : List String),
    zipLevels (chainZip n ps levels) = levels.length + 1 := by
  induction levels with
  | nil =>
    intro n ps
    rw [show chainZip n ps [] = ZFile.zipA n true (ps.map ZFile.plain) from rfl]
    rw [zipLevels, zipLevelsList_plains]
    simp
  | cons hd rest ih =>
    obtain ⟨n2, ps2⟩ := hd
    intro n ps
    rw [show chainZip n ps ((n2, ps2) :: rest) =
      ZFile.zipA n true (ps.map ZFile.plain ++ [chainZip n2 ps2 rest]) from rfl]
    rw [zipLevels, zipLevelsList_append, zipLevelsList_plains]
    rw [zipLevelsList, zipLevelsList, ih n2 ps2]
    simp
    omega

-- the workers -----------------------------------------------------------------

/-- Configuration handed to the external `Chunker` constructor
(worker.py lines 156-161 and 217-222), field per keyword argument. -/
structure ChunkerCfg where
  chunking_strategy : String
  max_tokens : Nat
  min_tokens : Nat
  duplicate_headers : Bool
deriving Repr, DecidableEq

/-- The `Chunker(...)` constructed by `ingest_worker` (worker.py lines
156-161). -/
def ingest_chunker_cfg : ChunkerCfg :=
  ⟨"classic_chunk", MAX_TOKENS, MIN_TOKENS, false⟩

/-- The `Chunker(...)` constructed by `remote_worker` (worker.py lines
217-222). -/
def remote_chunker_cfg : ChunkerCfg :=
  ⟨"classic_chunk", MAX_TOKENS, MIN_TOKENS, false⟩

/-- The exceptions that can cross the boundaries the claims talk about. -/
inductive Err where
  | request (msg : String)
  | valueError (msg : String)
  | unboundLocal (nm : String)
  | exc (msg : String)
deriving Repr, DecidableEq

/-- `str(e)` of an exception, as used by `sync` (worker.py line 289). -/
def errMsg : Err → String
  | .request m => m
  | .valueError m => m
  | .unboundLocal nm => "local variable " ++ nm ++ " referenced before assignment"
  | .exc m => m

/-- Trace of externally observable calls a worker makes, in order. -/
inductive Ev where
  | progress (n : Nat)
  | downloadCall
  | loadCall (docs : List String)
  | chunkCall (cfg : ChunkerCfg) (input output : List String)
  | tokens (n : Nat)
  | embedCall (docs : List String) (id : String)
  | uploadIndex (id : String)
deriving Repr, DecidableEq

/-- `bson.objectid.ObjectId.is_valid` on a string: a 24-character hex
string. -/
def ObjectId_is_valid (s : String) : Bool :=
  s.length == 24 && s.data.all (fun c =>
    c.isDigit || ('a' ≤ c && c ≤ 'f') || ('A' ≤ c && c ≤ 'F'))

/-- Oracle outcomes of the external collaborators of one `ingest_worker` run:
the transport result of the download, the working-directory contents it
produces, the loader's documents (or the exception it raises), the chunker
and token counter as functions, the embedding sink and index-upload
outcomes, and the freshly minted `ObjectId`. -/
structure IngestEnv where
  download : Except String Unit
  workdirFiles : List ZFile
  loadData : Except String (List String)
  chunk : ChunkerCfg → List String → List String
  toLangchain : String → String
  countTokens : List String → Nat
  embed : Except String Unit
  freshId : String
  upload : Except String Unit

/-- The dictionary `ingest_worker` returns (worker.py lines 186-193). -/
structure IngestResult where
  directory : String
  formats : List String
  name_job : String
  filename : String
  user : String
  limited : Bool
deriving Repr, DecidableEq

/-- worker.py lines 106-193, `ingest_worker`.  State: the list of directories
that exist.  Returns the final directories, the trace, and the result or the
exception that propagates.  There is no `try/finally` in the source: every
raise returns the directories as they are at that point, and only the final
line 184 `shutil.rmtree(full_path)` removes the working directory. -/
def ingest_worker (env : IngestEnv) (dirs : List String) (directory : String)
    (formats : List String) (name_job filename user : String)
    (retriever : String := "classic") :
    List String × List Ev × Except Err IngestResult :=
  let full_path := pjoin [directory, user, name_job]
  let dirs := if dirs.contains full_path then dirs else dirs ++ [full_path]
  match env.download with
  | .error e => (dirs, [Ev.downloadCall], .error (.request e))
  | .ok _ =>
    let _extracted :=
      if strEndsWith filename ".zip" then
        extract_zip_recursive env.workdirFiles filename 0 RECURSION_DEPTH
      else ⟨env.workdirFiles, 0, 0⟩
    let tr := [Ev.downloadCall, Ev.progress 1]
    match env.loadData with
    | .error e => (dirs, tr, .error (.exc e))
    | .ok raw_docs =>
      let raw_docs2 := env.chunk ingest_chunker_cfg raw_docs
      let docs := raw_docs2.map env.toLangchain
      let id := env.freshId
      let tr := tr ++ [Ev.loadCall raw_docs,
        Ev.chunkCall ingest_chunker_cfg raw_docs raw_docs2,
        Ev.embedCall docs id]
      match env.embed with
      | .error e => (dirs, tr, .error (.exc e))
      | .ok _ =>
        let tokens := env.countTokens docs
        let tr := tr ++ [Ev.tokens tokens, Ev.progress 100, Ev.uploadIndex id]
        match env.upload with
        | .error e => (dirs, tr, .error (.request e))
        | .ok _ =>
          let dirs := dirs.filter (fun p => !(p == full_path))
          (dirs, tr, .ok ⟨directory, formats, name_job, filename, user, false⟩)

/-- Oracle outcomes of the external collaborators of one `remote_worker` run:
loader resolution (`RemoteCreator.create_loader`), the loader's documents,
the chunker, format conversion and token counting as functions, the
embedding sink and index-upload outcomes, and the minted `ObjectId`. -/
structure RemoteEnv where
  createLoader : Except String Unit
  loadData : Except String (List String)
  chunk : ChunkerCfg → List String → List String
  toLangchain : String → String
  countTokens : List String → Nat
  embed : Except String Unit
  freshId : String
  upload : Except String Unit

/-- The dictionary `remote_worker` returns (worker.py line 261). -/
structure RemoteResult where
  urls : String
  name_job : String
  user : String
  limited : Bool
deriving Repr, DecidableEq

/-- The operation-mode dispatch of `remote_worker` (worker.py lines 228-236):
in `"upload"` mode mint a fresh id and embed; in `"sync"` mode validate
`doc_id` (falsy or not a valid `ObjectId` raises `ValueError`, worker.py
lines 232-234) and embed under it; any other mode binds no id at all.
Returns the events of the branch and either the exception or the
(possibly unbound, `none`) local `id`. -/
def remote_mode_branch (env : RemoteEnv) (docs : List String)
    (operation_mode : String) (doc_id : Option String) :
    List Ev × Except Err (Option String) :=
  if operation_mode == "upload" then
    let id := env.freshId
    match env.embed with
    | .error e => ([Ev.embedCall docs id], .error (.exc e))
    | .ok _ => ([Ev.embedCall docs id], .ok (some id))
  else if operation_mode == "sync" then
    match doc_id with
    | none => ([], .error (.valueError "doc_id must be provided for sync operation."))
    | some s =>
      if s == "" || !ObjectId_is_valid s then
        ([], .error (.valueError "doc_id must be provided for sync operation."))
      else
        match env.embed with
        | .error e => ([Ev.embedCall docs s], .error (.exc e))
        | .ok _ => ([Ev.embedCall docs s], .ok (some s))
  else ([], .ok none)

/-- The `try` body of `remote_worker` (worker.py lines 212-254): load, chunk
(the chunked list is immediately overwritten on line 224 by the raw documents
converted with `Document.to_langchain_format`), count tokens, branch on the
operation mode (binding the local `id` only in the `"upload"` and valid
`"sync"` branches; reading it unbound on line 245 raises `UnboundLocalError`),
embed, and upload the index.  Pure in the directory state, which only the
wrapper `remote_worker` touches. -/
def remote_worker_body (env : RemoteEnv)
    (source_data name_job user loader retriever sync_frequency
      operation_mode : String) (doc_id : Option String) :
    List Ev × Except Err RemoteResult :=
  match env.createLoader with
  | .error e => ([], .error (.exc e))
  | .ok _ =>
  match env.loadData with
  | .error e => ([], .error (.exc e))
  | .ok raw_docs =>
    let chunked := env.chunk remote_chunker_cfg raw_docs
    let docs := raw_docs.map env.toLangchain
    let tokens := env.countTokens docs
    let tr := [Ev.loadCall raw_docs,
      Ev.chunkCall remote_chunker_cfg raw_docs chunked, Ev.tokens tokens]
    let branch := remote_mode_branch env docs operation_mode doc_id
    match branch.2 with
    | .error e => (tr ++ branch.1, .error e)
    | .ok idOpt =>
      let tr := tr ++ branch.1 ++ [Ev.progress 100]
      match idOpt with
      | none => (tr, .error (.unboundLocal "id"))
      | some id =>
        match env.upload with
        | .error e => (tr ++ [Ev.uploadIndex id], .error (.request e))
        | .ok _ => (tr ++ [Ev.uploadIndex id],
            .ok ⟨source_data, name_job, user, false⟩)

/-- worker.py lines 195-261, `remote_worker`.  Creates the working directory,
runs the body, and — in a `finally` that runs on success and on every raise —
removes the working directory if it exists (lines 256-258). -/
def remote_worker (env : RemoteEnv) (dirs : List String)
    (source_data name_job user loader : String) (directory : String := "temp")
    (retriever : String := "classic") (sync_frequency : String := "never")
    (operation_mode : String := "upload") (doc_id : Option String := none) :
    List String × List Ev × Except Err RemoteResult :=
  let full_path := pjoin [directory, user, name_job]
  let dirs := if dirs.contains full_path then dirs else dirs ++ [full_path]
  let r := remote_worker_body env source_data name_job user loader retriever
    sync_frequency operation_mode doc_id
  let dirs := if dirs.contains full_path
    then dirs.filter (fun p => !(p == full_path)) else dirs
  (dirs, Ev.progress 1 :: r.1, r.2)

/-- The status dictionary `sync` returns (worker.py lines 289-290). -/
inductive SyncStatus where
  | success
  | error (msg : String)
deriving Repr, DecidableEq

/-- worker.py lines 263-290, `sync`: run `remote_worker` in `"sync"` mode,
catch any exception into an error status. -/
def sync (env : RemoteEnv) (dirs : List String)
    (source_data name_job user loader sync_frequency retriever : String)
    (doc_id : Option String := none) (directory : String := "temp") :
    List String × List Ev × SyncStatus :=
  let r := remote_worker env dirs source_data name_job user loader directory
    retriever sync_frequency "sync" doc_id
  match r.2.2 with
  | .error e => (r.1, r.2.1, .error (errMsg e))
  | .ok _ => (r.1, r.2.1, .success)

/-- One persisted source record, with the fields `sync_worker` reads
(worker.py lines 296-302); `sync_frequency` is `none` when the document has
no such key (`doc.get`). -/
structure SourceDoc where
  sync_frequency : Option String
  name : String
  user : String
  type : String
  remote_data : String
  retriever : String
  _id : String
deriving Repr, DecidableEq

/-- A registered source together with the oracle outcomes its resync run
would see. -/
structure SyncSource where
  doc : SourceDoc
  env : RemoteEnv

/-- The three counters `sync_worker` returns (worker.py lines 311-314). -/
structure SyncCounts where
  total_sync_count : Nat
  sync_success : Nat
  sync_failure : Nat
deriving Repr, DecidableEq

/-- The `for doc in sources` loop of worker.py lines 295-309, threading the
directory state and the counters; also accumulates the `_id` of every source
for which a job was invoked (instrumentation used to state that non-matching
sources are never touched). -/
def sync_worker_go (frequency : String) (dirs : List String)
    (srcs : List SyncSource) (acc : SyncCounts) (invoked : List String) :
    List String × SyncCounts × List String :=
  match srcs with
  | [] => (dirs, acc, invoked)
  | s :: rest =>
    if s.doc.sync_frequency == some frequency then
      let r := sync s.env dirs s.doc.remote_data s.doc.name s.doc.user
        s.doc.type frequency s.doc.retriever (some s.doc._id)
      let ok := r.2.2 == SyncStatus.success
      let acc := ⟨acc.total_sync_count + 1,
        acc.sync_success + (if ok then 1 else 0),
        acc.sync_failure + (if ok then 0 else 1)⟩
      sync_worker_go frequency r.1 rest acc (invoked ++ [s.doc._id])
    else
      sync_worker_go frequency dirs rest acc invoked

/-- worker.py lines 292-314, `sync_worker`. -/
def sync_worker (dirs : List String) (srcs : List SyncSource)
    (frequency : String) : List String × SyncCounts × List String :=
  sync_worker_go frequency dirs srcs ⟨0, 0, 0⟩ []

/-- The `file_info` dictionary handed to `attachment_worker` (worker.py lines
337-343), with its two keys. -/
structure FileInfo where
  folder : String
  filename : String
deriving Repr, DecidableEq

/-- One document persisted in the `attachments` collection (worker.py lines
369-375). -/
structure AttachmentRecord where
  user : String
  path : String
  content : String
  token_count : Nat
  date : Nat
deriving Repr, DecidableEq

/-- The success dictionary `attachment_worker` returns (worker.py lines
382-388). -/
structure AttachOk where
  attachment_id : String
  filename : String
  folder : String
  path : String
  token_count : Nat
deriving Repr, DecidableEq

/-- Result value of `attachment_worker`: it never raises, every failure is
returned as an error payload (worker.py lines 350-352, 389-396). -/
inductive AttachResult where
  | ok (r : AttachOk)
  | err (msg : String)
deriving Repr, DecidableEq

/-- Oracle outcomes of one `attachment_worker` run: whether the target file
exists, the loader's documents (or the exception it raises), the token
counter, the insert outcome (generated id, or the exception `insert_one`
raises), and the clock. -/
structure AttachEnv where
  fileExists : Bool
  loadData : Except String (List String)
  numTokens : String → Nat
  insert : Except String String
  now : Nat

/-- worker.py lines 316-396, `attachment_worker`.  State: the list of
persisted attachment records.  Total by construction: the missing-file check
returns an error payload, and the whole processing block sits in a
`try/except` that converts any exception into an error payload. -/
def attachment_worker (env : AttachEnv) (records : List AttachmentRecord)
    (directory : String) (file_info : FileInfo) (user : String) :
    List AttachmentRecord × AttachResult :=
  let folder_name := file_info.folder
  let filename := file_info.filename
  if !env.fileExists then
    (records, .err "File not found")
  else
    match env.loadData with
    | .error e => (records, .err ("Error processing file: " ++ e))
    | .ok documents =>
      match documents with
      | [] => (records, .err "No content was extracted from the file")
      | content :: _ =>
        let token_count := env.numTokens content
        let file_path_relative :=
          user ++ "/attachments/" ++ folder_name ++ "/" ++ filename
        match env.insert with
        | .error e => (records, .err ("Error processing file: " ++ e))
        | .ok attachment_id =>
          (records ++ [⟨user, file_path_relative, content, token_count, env.now⟩],
           .ok ⟨attachment_id, filename, folder_name, file_path_relative,
             token_count⟩)

-- helper predicates ----------------------------------------------------------

/-- Is the event a call of the embedding sink? -/
def isEmbedEv : Ev → Bool
  | .embedCall _ _ => true
  | _ => false

/-- Is the event a call of the index-upload endpoint? -/
def isUploadEv : Ev → Bool
  | .uploadIndex _ => true
  | _ => false

/-- Did the computation raise? -/
def isErrR {α : Type} : Except Err α → Bool
  | .error _ => true
  | .ok _ => false

/-- `not doc_id or not ObjectId.is_valid(doc_id)` (worker.py line 232):
missing, empty (falsy), or not a valid object id. -/
def docIdInvalid : Option String → Bool
  | none => true
  | some s => s == "" || !ObjectId_is_valid s

theorem contains_filter_ne (l : List String) (x : String) :
    (l.filter (fun p => !(p == x))).contains x = false := by
  induction l with
  | nil => rfl
  | cons a l ih =>
    by_cases h : (a == x) = true
    · simp [List.filter_cons, h, ih]
    · simp only [Bool.not_eq_true] at h
      simp [List.filter_cons, h, List.contains_cons, ih]
      intro hx
      rw [hx] at h
      simp at h

-- claim theorems --------------------------------------------------------------

/-- The `finally` block (worker.py lines 256-258) leaves the working
directory absent, whatever the run did. -/
theorem remote_cleanup (env : RemoteEnv) (dirs : List String)
    (source_data name_job user loader directory retriever sync_frequency
      operation_mode : String) (doc_id : Option String) :
    ((remote_worker env dirs source_data name_job user loader directory
        retriever sync_frequency operation_mode doc_id).1).contains
      (pjoin [directory, user, name_job]) = false := by
  unfold remote_worker
  set fp := pjoin [directory, user, name_job] with hfp
  set dirs1 := if dirs.contains fp then dirs else dirs ++ [fp] with hd1
  by_cases h : dirs1.contains fp = true
  · simp only [h, if_true]
    exact contains_filter_ne dirs1 fp
  · simp only [Bool.not_eq_true] at h
    simp only [h, Bool.false_eq_true, if_false]

/-- C6: whatever the oracle outcomes — success, a loader failure, a validation
failure, the unbound-id failure, an embed or upload failure — the `finally`
block of `remote_worker` (worker.py lines 256-258) runs before the call
returns or the exception propagates, and the job's working directory
`directory/user/name_job` is absent afterwards. -/
theorem C6_remote_worker_cleanup (env : RemoteEnv) (dirs : List String)
    (source_data name_job user loader directory retriever sync_frequency
      operation_mode : String) (doc_id : Option String) :
    ((remote_worker env dirs source_data name_job user loader directory
        retriever sync_frequency operation_mode doc_id).1).contains
      (pjoin [directory, user, name_job]) = false :=
  remote_cleanup env dirs source_data name_job user loader directory
    retriever sync_frequency operation_mode doc_id

/-- The mode-dispatch branch emits either nothing or a single embedding call
on the already-converted documents. -/
theorem remote_mode_branch_events (env : RemoteEnv) (docs : List String)
    (om : String) (di : Option String) :
    (remote_mode_branch env docs om di).1 = []
    ∨ ∃ i, (remote_mode_branch env docs om di).1 = [Ev.embedCall docs i] := by
  unfold remote_mode_branch
  by_cases h1 : (om == "upload") = true
  · simp only [h1, if_true]
    cases env.embed <;> simp
  · simp only [h1, Bool.false_eq_true, if_false]
    by_cases h2 : (om == "sync") = true
    · simp only [h2, if_true]
      cases di with
      | none => simp
      | some s =>
        by_cases h3 : (s == "" || !ObjectId_is_valid s) = true
        · simp [h3]
        · simp only [Bool.not_eq_true] at h3
          simp only [h3, Bool.false_eq_true, if_false]
          cases env.embed <;> simp
    · simp [h2]

/-- Every chunker invocation `ingest_worker` makes uses its fixed
configuration. -/
theorem ingest_chunkCall_cfg (env : IngestEnv) (dirs : List String)
    (directory : String) (formats : List String)
    (name_job filename user retriever : String) (cfg : ChunkerCfg)
    (ins outs : List String)
    (hm : Ev.chunkCall cfg ins outs ∈
      (ingest_worker env dirs directory formats name_job filename user
        retriever).2.1) :
    cfg = ingest_chunker_cfg := by
  unfold ingest_worker at hm
  cases hd : env.download with
  | error e => rw [hd] at hm; simp at hm
  | ok _ =>
    rw [hd] at hm
    cases hl : env.loadData with
    | error e => rw [hl] at hm; simp at hm
    | ok raw_docs =>
      rw [hl] at hm
      cases he : env.embed with
      | error e =>
        rw [he] at hm
        simp only [List.mem_cons, List.mem_append, List.mem_singleton] at hm
        rcases hm with h | h | h | h | h <;> simp_all
      | ok _ =>
        rw [he] at hm
        cases hu : env.upload with
        | error e =>
          rw [hu] at hm
          simp only [List.mem_cons, List.mem_append, List.mem_singleton] at hm
          rcases hm with h | h | h <;> simp_all
        | ok _ =>
          rw [hu] at hm
          simp only [List.mem_cons, List.mem_append, List.mem_singleton] at hm
          rcases hm with h | h | h <;> simp_all

/-- Any event of a `remote_worker_body` run (when loader resolution and
loading succeed) is one of the three fixed pipeline events, an event of the
mode branch, the final progress report, or the index upload. -/
theorem remote_body_mem (env : RemoteEnv)
    (sd nj u ld ret sf om : String) (di : Option String)
    (raw_docs : List String) (hc : env.createLoader = Except.ok ())
    (hl : env.loadData = Except.ok raw_docs) (ev : Ev)
    (hm : ev ∈ (remote_worker_body env sd nj u ld ret sf om di).1) :
    ev = Ev.loadCall raw_docs
    ∨ ev = Ev.chunkCall remote_chunker_cfg raw_docs
        (env.chunk remote_chunker_cfg raw_docs)
    ∨ ev = Ev.tokens (env.countTokens (raw_docs.map env.toLangchain))
    ∨ ev ∈ (remote_mode_branch env (raw_docs.map env.toLangchain) om di).1
    ∨ ev = Ev.progress 100
    ∨ (∃ i, ev = Ev.uploadIndex i) := by
  unfold remote_worker_body at hm
  simp only [hc, hl] at hm
  cases hbr : (remote_mode_branch env (raw_docs.map env.toLangchain) om di).2
    with
  | error e =>
    rw [hbr] at hm
    simp only [List.mem_append, List.mem_cons, List.mem_singleton,
      List.not_mem_nil, or_false] at hm
    tauto
  | ok idOpt =>
    rw [hbr] at hm
    cases idOpt with
    | none =>
      simp only [List.mem_append, List.mem_cons, List.mem_singleton,
        List.not_mem_nil, or_false] at hm
      tauto
    | some i2 =>
      cases hu : env.upload with
      | error e =>
        rw [hu] at hm
        simp only [List.mem_append, List.mem_cons, List.mem_singleton,
          List.not_mem_nil, or_false] at hm
        tauto
      | ok _ =>
        rw [hu] at hm
        simp only [List.mem_append, List.mem_cons, List.mem_singleton,
          List.not_mem_nil, or_false] at hm
        tauto

/-- Every chunker invocation `remote_worker` makes uses its fixed
configuration. -/
theorem remote_chunkCall_cfg (env : RemoteEnv) (dirs : List String)
    (sd nj u ld dir ret sf om : String) (di : Option String)
    (cfg : ChunkerCfg) (ins outs : List String)
    (hm : Ev.chunkCall cfg ins outs ∈
      (remote_worker env dirs sd nj u ld dir ret sf om di).2.1) :
    cfg = remote_chunker_cfg := by
  unfold remote_worker at hm
  simp only [List.mem_cons] at hm
  rcases hm with h | hm
  · simp at h
  cases hc : env.createLoader with
  | error e =>
    unfold remote_worker_body at hm
    rw [hc] at hm
    simp at hm
  | ok u1 =>
    cases hl : env.loadData with
    | error e =>
      unfold remote_worker_body at hm
      rw [hc, hl] at hm
      simp at hm
    | ok raw_docs =>
      have hmem := remote_body_mem env sd nj u ld ret sf om di raw_docs
        hc hl _ hm
      rcases remote_mode_branch_events env (raw_docs.map env.toLangchain)
        om di with hb | ⟨i, hb⟩ <;>
        rw [hb] at hmem <;>
        rcases hmem with h | h | h | h | h | ⟨j, h⟩ <;>
        simp_all

/-- C9: both ingestion flows construct their chunker with the same fixed
policy — strategy `"classic_chunk"` (the classic strategy), maximum 1250 and
minimum 150 tokens, header-deduplication disabled — and every chunker
invocation either worker ever makes (every `chunkCall` in any run's trace)
carries exactly that configuration. -/
theorem C9_chunk_policy :
    ingest_chunker_cfg = remote_chunker_cfg
    ∧ ingest_chunker_cfg = ⟨"classic_chunk", 1250, 150, false⟩
    ∧ MIN_TOKENS = 150 ∧ MAX_TOKENS = 1250
    ∧ (∀ (env : IngestEnv) (dirs : List String) (directory : String)
        (formats : List String) (name_job filename user retriever : String)
        (cfg : ChunkerCfg) (ins outs : List String),
        Ev.chunkCall cfg ins outs ∈
          (ingest_worker env dirs directory formats name_job filename user
            retriever).2.1 →
        cfg = ingest_chunker_cfg)
    ∧ (∀ (env : RemoteEnv) (dirs : List String) (sd nj u ld dir ret sf
        om : String) (di : Option String) (cfg : ChunkerCfg)
        (ins outs : List String),
        Ev.chunkCall cfg ins outs ∈
          (remote_worker env dirs sd nj u ld dir ret sf om di).2.1 →
        cfg = remote_chunker_cfg) :=
  ⟨rfl, rfl, rfl, rfl,
   fun env dirs dir fmts nj fn u ret cfg ins outs hm =>
     ingest_chunkCall_cfg env dirs dir fmts nj fn u ret cfg ins outs hm,
   fun env dirs sd nj u ld dir ret sf om di cfg ins outs hm =>
     remote_chunkCall_cfg env dirs sd nj u ld dir ret sf om di cfg ins outs hm⟩

/-- C2: in the remote flow the chunker's output is discarded — line 224 of
worker.py rebinds `docs` to the raw loader documents converted with
`Document.to_langchain_format` — so, in upload mode, the embedding sink is
called on exactly the converted raw documents, and in every mode any
embedding call that happens receives them (never the chunked slices).  This
holds for every chunk oracle, i.e. whatever the chunker returns. -/
theorem C2_remote_embeds_unchunked (env : RemoteEnv) (dirs : List String)
    (sd nj u ld dir ret sf : String) (di : Option String)
    (raw_docs : List String) (hc : env.createLoader = Except.ok ())
    (hl : env.loadData = Except.ok raw_docs) :
    Ev.embedCall (raw_docs.map env.toLangchain) env.freshId ∈
      (remote_worker env dirs sd nj u ld dir ret sf "upload" di).2.1
    ∧ (∀ (om : String) (docs : List String) (i : String),
        Ev.embedCall docs i ∈
          (remote_worker env dirs sd nj u ld dir ret sf om di).2.1 →
        docs = raw_docs.map env.toLangchain) := by
  constructor
  · unfold remote_worker remote_worker_body remote_mode_branch
    simp only [hc, hl]
    cases he : env.embed <;> cases hu : env.upload <;> simp
  · intro om docs i hm
    unfold remote_worker at hm
    simp only [List.mem_cons] at hm
    rcases hm with h | hm
    · simp at h
    have hmem := remote_body_mem env sd nj u ld ret sf om di raw_docs hc hl
      _ hm
    rcases remote_mode_branch_events env (raw_docs.map env.toLangchain) om di
      with hb | ⟨j, hb⟩ <;> rw [hb] at hmem <;> simp_all

/-- In sync mode with a falsy or invalid `doc_id`, the mode branch raises the
validation error without any embedding call (worker.py lines 232-234). -/
theorem remote_mode_branch_sync_invalid (env : RemoteEnv)
    (docs : List String) (di : Option String)
    (hdi : docIdInvalid di = true) :
    remote_mode_branch env docs "sync" di =
      ([], Except.error
        (Err.valueError "doc_id must be provided for sync operation.")) := by
  unfold remote_mode_branch
  cases di with
  | none => simp
  | some s =>
    simp only [docIdInvalid] at hdi
    simp [hdi]

/-- C4: a `remote_worker` call in sync mode whose `doc_id` is missing, empty
or not a valid `ObjectId` never calls the embedding sink, raises (its result
is an exception), and its working directory is removed; when loader
resolution and loading succeed the exception is precisely the `ValueError`
of worker.py line 234, raised before any embedding work. -/
theorem C4_sync_invalid_id (env : RemoteEnv) (dirs : List String)
    (sd nj u ld dir ret sf : String) (di : Option String)
    (hdi : docIdInvalid di = true) :
    ((remote_worker env dirs sd nj u ld dir ret sf "sync" di).2.1).countP
        isEmbedEv = 0
    ∧ isErrR (remote_worker env dirs sd nj u ld dir ret sf "sync" di).2.2
        = true
    ∧ ((remote_worker env dirs sd nj u ld dir ret sf "sync" di).1).contains
        (pjoin [dir, u, nj]) = false
    ∧ (∀ raw_docs, env.createLoader = Except.ok () →
        env.loadData = Except.ok raw_docs →
        (remote_worker env dirs sd nj u ld dir ret sf "sync" di).2.2 =
          Except.error
            (Err.valueError "doc_id must be provided for sync operation.")) := by
  refine ⟨?_, ?_, remote_cleanup env dirs sd nj u ld dir ret sf "sync" di, ?_⟩
  · unfold remote_worker remote_worker_body
    cases hc : env.createLoader with
    | error e => simp [isEmbedEv]
    | ok u1 =>
      cases hl : env.loadData with
      | error e => simp [isEmbedEv]
      | ok raw_docs =>
        have hbr := remote_mode_branch_sync_invalid env
          (List.map env.toLangchain raw_docs) di hdi
        simp [hbr, isEmbedEv]
  · unfold remote_worker remote_worker_body
    cases hc : env.createLoader with
    | error e => simp [isErrR]
    | ok u1 =>
      cases hl : env.loadData with
      | error e => simp [isErrR]
      | ok raw_docs =>
        have hbr := remote_mode_branch_sync_invalid env
          (List.map env.toLangchain raw_docs) di hdi
        simp [hbr, isErrR]
  · intro raw_docs hc hl
    unfold remote_worker remote_worker_body
    have hbr := remote_mode_branch_sync_invalid env
      (List.map env.toLangchain raw_docs) di hdi
    simp [hc, hl, hbr]

/-- C10: a `remote_worker` call whose mode is neither `"upload"` nor
`"sync"` reaches the completion payload with the local `id` never assigned:
it raises `UnboundLocalError` at worker.py line 245, after the load, chunk
and token-count events and before any embedding or index-upload call, and
the `finally` block still removes the working directory. -/
theorem C10_unknown_mode (env : RemoteEnv) (dirs : List String)
    (sd nj u ld dir ret sf om : String) (di : Option String)
    (raw_docs : List String) (h1 : om ≠ "upload") (h2 : om ≠ "sync")
    (hc : env.createLoader = Except.ok ())
    (hl : env.loadData = Except.ok raw_docs) :
    (remote_worker env dirs sd nj u ld dir ret sf om di).2.2 =
      Except.error (Err.unboundLocal "id")
    ∧ Ev.loadCall raw_docs ∈
        (remote_worker env dirs sd nj u ld dir ret sf om di).2.1
    ∧ Ev.chunkCall remote_chunker_cfg raw_docs
        (env.chunk remote_chunker_cfg raw_docs) ∈
        (remote_worker env dirs sd nj u ld dir ret sf om di).2.1
    ∧ Ev.tokens (env.countTokens (raw_docs.map env.toLangchain)) ∈
        (remote_worker env dirs sd nj u ld dir ret sf om di).2.1
    ∧ ((remote_worker env dirs sd nj u ld dir ret sf om di).2.1).countP
        isEmbedEv = 0
    ∧ ((remote_worker env dirs sd nj u ld dir ret sf om di).2.1).countP
        isUploadEv = 0
    ∧ ((remote_worker env dirs sd nj u ld dir ret sf om di).1).contains
        (pjoin [dir, u, nj]) = false := by
  have hb1 : (om == "upload") = false := by
    simp only [beq_eq_false_iff_ne, ne_eq]
    exact h1
  have hb2 : (om == "sync") = false := by
    simp only [beq_eq_false_iff_ne, ne_eq]
    exact h2
  refine ⟨?_, ?_, ?_, ?_, ?_, ?_,
    remote_cleanup env dirs sd nj u ld dir ret sf om di⟩ <;>
    unfold remote_worker remote_worker_body remote_mode_branch <;>
    simp only [hc, hl, hb1, hb2, Bool.false_eq_true, if_false] <;>
    simp [isEmbedEv, isUploadEv]

theorem contains_append_singleton (l : List String) (x : String) :
    (l ++ [x]).contains x = true := by
  induction l with
  | nil => simp [List.contains_cons]
  | cons a l ih => simp [List.contains_cons, ih]

/-- C1 (amended): `ingest_worker` has no `try/finally` — on the success path
the working directory is removed by the final `shutil.rmtree` (worker.py line
184), but when the download raises (worker.py line 80) the exception
propagates from line 136 before any cleanup, and the working directory is
still present afterwards. -/
theorem C1_ingest_cleanup (env : IngestEnv) (dirs : List String)
    (directory : String) (formats : List String)
    (name_job filename user retriever : String) :
    (∀ e, env.download = Except.error e →
      ((ingest_worker env dirs directory formats name_job filename user
        retriever).1).contains (pjoin [directory, user, name_job]) = true
      ∧ (ingest_worker env dirs directory formats name_job filename user
        retriever).2.2 = Except.error (Err.request e))
    ∧ (∀ ds, env.download = Except.ok () → env.loadData = Except.ok ds →
        env.embed = Except.ok () → env.upload = Except.ok () →
        ((ingest_worker env dirs directory formats name_job filename user
          retriever).1).contains (pjoin [directory, user, name_job]) = false
        ∧ (ingest_worker env dirs directory formats name_job filename user
          retriever).2.2 = Except.ok
            ⟨directory, formats, name_job, filename, user, false⟩) := by
  constructor
  · intro e hd
    unfold ingest_worker
    simp only [hd]
    refine ⟨?_, by trivial⟩
    by_cases h : dirs.contains (pjoin [directory, user, name_job]) = true
    · simp at h
      simp [h]
    · simp at h
      simp [h]
  · intro ds hd hl he hu
    unfold ingest_worker
    simp only [hd, hl, he, hu]
    refine ⟨?_, by trivial⟩
    have := contains_filter_ne
      (if dirs.contains (pjoin [directory, user, name_job]) = true then dirs
        else dirs ++ [pjoin [directory, user, name_job]])
      (pjoin [directory, user, name_job])
    simp [this]

/-- Environment of the C1 counterexample run: the download of the named file
raises a transport error, every other collaborator is healthy. -/
def env1x : IngestEnv :=
  ⟨Except.error "connection refused", [], Except.ok [], fun _ l => l,
   fun s => s, fun _ => 0, Except.ok (), "id1", Except.ok ()⟩

/-- C1 counterexample: the claim says the working directory is absent after
the run on the download-failure path as well.  Concretely: directory
`inputs/u1/job1` exists before the run, the download of `notes.txt` raises a
transport error — and after the run the directory is still there (the
propagated exception skips the cleanup of worker.py line 184). -/
theorem C1_counterexample :
    (ingest_worker env1x ["inputs/u1/job1"] "inputs" [] "job1" "notes.txt"
      "u1" "classic").1 = ["inputs/u1/job1"]
    ∧ isErrR (ingest_worker env1x ["inputs/u1/job1"] "inputs" [] "job1"
      "notes.txt" "u1" "classic").2.2 = true
    ∧ pjoin ["inputs", "u1", "job1"] = "inputs/u1/job1" := by
  refine ⟨by decide, by decide, by decide⟩

/-- Environment of the C1 witness run: every collaborator is healthy. -/
def env1s : IngestEnv :=
  ⟨Except.ok (), [], Except.ok ["doc"], fun _ l => l, fun s => s,
   fun l => l.length, Except.ok (), "id1s", Except.ok ()⟩

/-- C1 witness: a fully successful run removes `inputs/u1/job1` and returns
the summary dictionary; a run whose download raises keeps the directory. -/
theorem C1_witness :
    (((ingest_worker env1s [] "inputs" [] "job1" "notes.txt" "u1"
        "classic").1).contains (pjoin ["inputs", "u1", "job1"]) = false
      ∧ (ingest_worker env1s [] "inputs" [] "job1" "notes.txt" "u1"
        "classic").2.2 = Except.ok ⟨"inputs", [], "job1", "notes.txt", "u1",
          false⟩)
    ∧ ((ingest_worker env1x [] "inputs" [] "job1" "notes.txt" "u1"
        "classic").1).contains (pjoin ["inputs", "u1", "job1"]) = true :=
  ⟨(C1_ingest_cleanup env1s [] "inputs" [] "job1" "notes.txt" "u1"
      "classic").2 ["doc"] rfl rfl rfl rfl,
   ((C1_ingest_cleanup env1x [] "inputs" [] "job1" "notes.txt" "u1"
      "classic").1 "connection refused" rfl).1⟩

/-- C8: `attachment_worker` never raises — every input is mapped to a result
value.  A missing file, a loader exception, an empty document list and a
failing insert each produce the error payload of the corresponding branch of
worker.py (lines 350-352, 389-396), leaving the store untouched; otherwise
exactly one attachment record (user, derived relative path, full text, token
count, timestamp) is persisted and the generated id plus metadata returned. -/
theorem C8_attachment_worker (env : AttachEnv)
    (records : List AttachmentRecord) (directory : String) (fi : FileInfo)
    (user : String) :
    (env.fileExists = false →
      attachment_worker env records directory fi user =
        (records, .err "File not found"))
    ∧ (∀ e, env.fileExists = true → env.loadData = Except.error e →
        attachment_worker env records directory fi user =
          (records, .err ("Error processing file: " ++ e)))
    ∧ (env.fileExists = true → env.loadData = Except.ok [] →
        attachment_worker env records directory fi user =
          (records, .err "No content was extracted from the file"))
    ∧ (∀ content rest e, env.fileExists = true →
        env.loadData = Except.ok (content :: rest) →
        env.insert = Except.error e →
        attachment_worker env records directory fi user =
          (records, .err ("Error processing file: " ++ e)))
    ∧ (∀ content rest i, env.fileExists = true →
        env.loadData = Except.ok (content :: rest) →
        env.insert = Except.ok i →
        attachment_worker env records directory fi user =
          (records ++ [⟨user,
              user ++ "/attachments/" ++ fi.folder ++ "/" ++ fi.filename,
              content, env.numTokens content, env.now⟩],
           .ok ⟨i, fi.filename, fi.folder,
              user ++ "/attachments/" ++ fi.folder ++ "/" ++ fi.filename,
              env.numTokens content⟩)) := by
  refine ⟨?_, ?_, ?_, ?_, ?_⟩
  · intro hf
    unfold attachment_worker
    simp [hf]
  · intro e hf hl
    unfold attachment_worker
    simp [hf, hl]
  · intro hf hl
    unfold attachment_worker
    simp [hf, hl]
  · intro content rest e hf hl hi
    unfold attachment_worker
    simp [hf, hl, hi]
  · intro content rest i hf hl hi
    unfold attachment_worker
    simp [hf, hl, hi]

/-- Environment of the C8 witness run. -/
def env8 : AttachEnv :=
  ⟨true, Except.ok ["hello world"], fun s => s.length, Except.ok "atid0", 42⟩

/-- C8 witness: a successful run persists exactly one record and returns the
generated id and metadata; a run with a missing file returns the error
payload and persists nothing. -/
theorem C8_witness :
    attachment_worker env8 [] "temp" ⟨"f1", "a.md"⟩ "u1" =
      ([⟨"u1", "u1/attachments/f1/a.md", "hello world", 11, 42⟩],
       .ok ⟨"atid0", "a.md", "f1", "u1/attachments/f1/a.md", 11⟩)
    ∧ attachment_worker ⟨false, Except.ok [], fun _ => 0, Except.ok "x", 0⟩
        [] "temp" ⟨"f1", "a.md"⟩ "u1" = ([], .err "File not found") :=
  ⟨by
    have h := (C8_attachment_worker env8 [] "temp" ⟨"f1", "a.md"⟩ "u1").2.2.2.2
      "hello world" [] "atid0" rfl rfl rfl
    simpa using h,
   (C8_attachment_worker ⟨false, Except.ok [], fun _ => 0, Except.ok "x", 0⟩
      [] "temp" ⟨"f1", "a.md"⟩ "u1").1 rfl⟩

theorem countP_not_add {α : Type} (p : α → Bool) (l : List α) :
    l.countP (fun a => !p a) + l.countP p = l.length := by
  induction l with
  | nil => simp
  | cons a l ih =>
    simp only [List.countP_cons, List.length_cons]
    cases h : p a <;> simp [h] <;> omega

/-- Does the resync of this source fail?  Decided by the try-body of its
`remote_worker` run (the directory bookkeeping cannot change the outcome). -/
def sourceFails (freq : String) (s : SyncSource) : Bool :=
  isErrR (remote_worker_body s.env s.doc.remote_data s.doc.name s.doc.user
    s.doc.type s.doc.retriever freq "sync" (some s.doc._id)).2

/-- `sync` reports success exactly when the `remote_worker` body did not
raise. -/
theorem sync_success_iff (env : RemoteEnv) (dirs : List String)
    (sd nj u ld sf ret : String) (di : Option String) (dir : String) :
    ((sync env dirs sd nj u ld sf ret di dir).2.2 == SyncStatus.success)
      = !isErrR (remote_worker_body env sd nj u ld ret sf "sync" di).2 := by
  unfold sync remote_worker
  cases h : (remote_worker_body env sd nj u ld ret sf "sync" di).2 <;>
    simp [h, isErrR]

/-- Loop invariant of `sync_worker_go`: the counters advance by the matching
sources' tallies, and exactly the matching sources are invoked, in order. -/
theorem sync_worker_go_spec (freq : String) (srcs : List SyncSource) :
    ∀ (dirs : List String) (acc : SyncCounts) (invoked : List String),
    (sync_worker_go freq dirs srcs acc invoked).2.1 =
      ⟨acc.total_sync_count +
        (srcs.filter (fun s => s.doc.sync_frequency == some freq)).length,
       acc.sync_success +
        (srcs.filter (fun s => s.doc.sync_frequency == some freq)).countP
          (fun s => !sourceFails freq s),
       acc.sync_failure +
        (srcs.filter (fun s => s.doc.sync_frequency == some freq)).countP
          (fun s => sourceFails freq s)⟩
    ∧ (sync_worker_go freq dirs srcs acc invoked).2.2 =
        invoked ++
          (srcs.filter (fun s => s.doc.sync_frequency == some freq)).map
            (fun s => s.doc._id) := by
  induction srcs with
  | nil =>
    intro dirs acc invoked
    simp [sync_worker_go]
  | cons s rest ih =>
    intro dirs acc invoked
    by_cases hm : (s.doc.sync_frequency == some freq) = true
    · have hst := sync_success_iff s.env dirs s.doc.remote_data s.doc.name
        s.doc.user s.doc.type freq s.doc.retriever (some s.doc._id) "temp"
      unfold sync_worker_go
      simp only [hm, if_true]
      rw [hst]
      have hrec := ih (sync s.env dirs s.doc.remote_data s.doc.name s.doc.user
        s.doc.type freq s.doc.retriever (some s.doc._id) "temp").1
      cases hf : sourceFails freq s
      · simp only [sourceFails] at hf
        rw [hf]
        refine ⟨?_, ?_⟩
        · rw [(hrec _ _).1]
          simp [List.filter_cons, hm, List.countP_cons, sourceFails, hf]
          omega
        · rw [(hrec _ _).2]
          simp [List.filter_cons, hm]
      · simp only [sourceFails] at hf
        rw [hf]
        refine ⟨?_, ?_⟩
        · rw [(hrec _ _).1]
          simp [List.filter_cons, hm, List.countP_cons, sourceFails, hf]
          omega
        · rw [(hrec _ _).2]
          simp [List.filter_cons, hm]
    · unfold sync_worker_go
      simp only [hm, Bool.false_eq_true, if_false]
      rw [(ih dirs acc invoked).1, (ih dirs acc invoked).2]
      refine ⟨?_, ?_⟩ <;> simp [List.filter_cons, hm]

/-- C5: for a store of sources of which the ones with stored frequency equal
to the target are `matching` (M of them) and `K` of those fail, `sync_worker`
invokes one sync-mode job per matching source (exactly the matching ids, in
order — the non-matching sources are never invoked), counts each failure
without stopping, and returns exactly the three counters
`total_sync_count = M`, `sync_success = M − K`, `sync_failure = K`. -/
theorem C5_sync_worker (dirs : List String) (srcs : List SyncSource)
    (freq : String) :
    (sync_worker dirs srcs freq).2.1 =
      ⟨(srcs.filter (fun s => s.doc.sync_frequency == some freq)).length,
       (srcs.filter (fun s => s.doc.sync_frequency == some freq)).length -
         (srcs.filter (fun s => s.doc.sync_frequency == some freq)).countP
           (fun s => sourceFails freq s),
       (srcs.filter (fun s => s.doc.sync_frequency == some freq)).countP
         (fun s => sourceFails freq s)⟩
    ∧ (sync_worker dirs srcs freq).2.2 =
        (srcs.filter (fun s => s.doc.sync_frequency == some freq)).map
          (fun s => s.doc._id) := by
  have h := sync_worker_go_spec freq srcs dirs ⟨0, 0, 0⟩ []
  unfold sync_worker
  have hc := countP_not_add (fun s => sourceFails freq s)
    (srcs.filter (fun s => s.doc.sync_frequency == some freq))
  refine ⟨?_, by simpa using h.2⟩
  rw [h.1]
  have hs : (srcs.filter (fun s => s.doc.sync_frequency == some freq)).countP
      (fun s => !sourceFails freq s) =
      (srcs.filter (fun s => s.doc.sync_frequency == some freq)).length -
        (srcs.filter (fun s => s.doc.sync_frequency == some freq)).countP
          (fun s => sourceFails freq s) := by
    omega
  rw [hs]
  simp

/-- C3 (amended): the extractor's depth limit is the caller-supplied
`max_depth` — a call past it stops with one warning and no extraction — and
`5` is merely the default value of that parameter (the call with defaulted
arguments is the call with `current_depth = 0, max_depth = 5`), while
`ingest_worker` supplies `RECURSION_DEPTH = 2`.  There is no separate
internal hard stop at depth 5. -/
theorem C3_depth_limit (fs : List ZFile) (n : String) (cd md : Nat)
    (h : cd > md) :
    extract_zip_recursive fs n cd md = ⟨fs, 1, 0⟩
    ∧ (∀ (gs : List ZFile) (m : String),
        extract_zip_recursive gs m = extract_zip_recursive gs m 0 5)
    ∧ RECURSION_DEPTH = 2 :=
  ⟨extract_over fs n cd md h, fun _ _ => rfl, rfl⟩

/-- C3 witness: a call already past the caller-supplied limit (depth 6,
limit 5) warns and extracts nothing. -/
theorem C3_witness : extract_zip_recursive [] "x.zip" 6 5 = ⟨[], 1, 0⟩ :=
  (C3_depth_limit [] "x.zip" 6 5 (by omega)).1

/-- A chain of seven nested archives, the innermost holding one plain file:
the deepest archive sits at nesting level 6. -/
def c3chain : ZFile :=
  .zipA "c0.zip" true [.zipA "c1.zip" true [.zipA "c2.zip" true [.zipA
    "c3.zip" true [.zipA "c4.zip" true [.zipA "c5.zip" true [.zipA "c6.zip"
    true [.plain "f"]]]]]]]

/-- C3 counterexample: the claim says no extraction recursion proceeds past
depth 5 regardless of the caller-supplied limit.  But with a caller-supplied
`max_depth = 7` the archive at nesting level 6 is extracted (the run ends
with the single plain file and no archive left, zero warnings), whereas the
same input under the default `max_depth = 5` stops there.  The caller's
value replaces the 5 entirely. -/
theorem C3_counterexample :
    extract_zip_recursive [c3chain] "c0.zip" 0 7 = ⟨[ZFile.plain "f"], 0, 0⟩
    ∧ extract_zip_recursive [c3chain] "c0.zip" 0 5 =
        ⟨[ZFile.zipA "c6.zip" true [ZFile.plain "f"]], 1, 0⟩
    ∧ zipLevels c3chain = 7 := by
  refine ⟨?_, ?_, ?_⟩
  · simp [extract_zip_recursive, walkFiles, afterExtract, lookupFile,
      strEndsWith, c3chain, ZFile.name, List.find?, List.isSuffixOf]
  · simp [extract_zip_recursive, walkFiles, afterExtract, lookupFile,
      strEndsWith, c3chain, ZFile.name, List.find?, List.isSuffixOf]
  · simp [c3chain, zipLevels, zipLevelsList]

/-- C7 (amended): for archives that reveal at most one nested archive per
level (chains), the extractor behaves as specified: a chain whose archives
nest down to level `levels.length ≤ max_depth − current_depth` is fully
unpacked — only plain files remain, every unpacked archive file was deleted,
no warning, no error; a deeper chain is unpacked exactly down to the budget,
the one over-budget call emits one warning, does not raise, and the
already-extracted files are kept; a corrupt (or vanished) archive logs one
error, leaves the state unchanged and abandons only that branch.  (With
sibling archives the walk re-scan inflates depths — see the
counterexample.) -/
theorem C7_extractor_behaviour :
    (∀ (n : String) (ps : List String)
        (levels : List (String × List String)) (cd md : Nat),
        strEndsWith n ".zip" = true → chainOk ps levels = true → cd ≤ md →
        extract_zip_recursive [chainZip n ps levels] n cd md =
          ⟨chainPartial (md - cd) ps levels,
           if levels.length ≤ md - cd then 0 else 1, 0⟩)
    ∧ (∀ (b : Nat) (ps : List String)
        (levels : List (String × List String)), levels.length ≤ b →
        (chainPartial b ps levels).all ZFile.isPlain = true)
    ∧ (∀ (n : String) (ps : List String)
        (levels : List (String × List String)),
        zipLevels (chainZip n ps levels) = levels.length + 1)
    ∧ (∀ (fs : List ZFile) (n m : String) (cd md : Nat) (es : List ZFile),
        ¬ cd > md → lookupFile fs n = some (ZFile.zipA m false es) →
        extract_zip_recursive fs n cd md = ⟨fs, 0, 1⟩) := by
  refine ⟨?_, ?_, ?_, ?_⟩
  · intro n ps levels cd md hn hc hcd
    have h := extract_chain levels n ps [] cd md rfl hn hc hcd
    simpa using h
  · intro b ps levels hb
    exact chainPartial_all_plain levels b ps hb
  · intro n ps levels
    exact zipLevels_chain levels n ps
  · intro fs n m cd md es h hl
    exact extract_corrupt fs n cd md m es h hl

/-- C7 witness: the two-level chain `a.zip[x, b.zip[y]]` under limit 2 is
fully unpacked with no warning and no error. -/
theorem C7_witness :
    extract_zip_recursive [chainZip "a.zip" ["x"] [("b.zip", ["y"])]]
        "a.zip" 0 2 =
      ⟨chainPartial (2 - 0) ["x"] [("b.zip", ["y"])],
       if ([("b.zip", ["y"])] : List (String × List String)).length ≤ 2 - 0
         then 0 else 1, 0⟩ :=
  C7_extractor_behaviour.1 "a.zip" ["x"] [("b.zip", ["y"])] 0 2
    (by decide) (by decide) (by omega)

/-- `b.zip` containing `b2.zip` containing the plain file `b`. -/
def exB : ZFile := .zipA "b.zip" true [.zipA "b2.zip" true [.plain "b"]]

/-- The archive left behind in the C7 counterexample run. -/
def exD2 : ZFile := .zipA "d2.zip" true [.plain "f"]

/-- `d.zip` containing `d2.zip` containing the plain file `f`. -/
def exD : ZFile := .zipA "d.zip" true [exD2]

/-- `a.zip` containing the two sibling chains `exB` and `exD`: its archives
nest down to level 2 (`zipLevels exA = 3`). -/
def exA : ZFile := .zipA "a.zip" true [exB, exD]

/-- C7 counterexample: the claim says every archive of nesting depth at most
the ceiling is fully unpacked, warnings appear only past the ceiling, and
errors only for archives that fail to extract.  `exA` nests archives only
down to level 2 and is extracted with the ceiling 2 (`ingest_worker`'s
`RECURSION_DEPTH`), yet `d2.zip` is left unextracted: after `b.zip` is
unpacked, the walk re-scan reaches the sibling `d.zip` at the inflated depth
2 and its child at 3, which trips the ceiling (3 warnings), and the outer
loop then finds `d.zip` already gone and logs an extraction error although
no archive is corrupt. -/
theorem C7_counterexample :
    zipLevels exA = 3
    ∧ RECURSION_DEPTH = 2
    ∧ extract_zip_recursive [exA] "a.zip" 0 RECURSION_DEPTH =
        ⟨[exD2, ZFile.plain "b"], 3, 1⟩
    ∧ ZFile.isPlain exD2 = false := by
  refine ⟨?_, rfl, ?_, rfl⟩
  · simp [exA, exB, exD, exD2, zipLevels, zipLevelsList]
  · simp [extract_zip_recursive, walkFiles, afterExtract, lookupFile,
      strEndsWith, exA, exB, exD, exD2, ZFile.name, List.find?,
      List.isSuffixOf, RECURSION_DEPTH]

/-- Environment of the C2 witness run: the loader yields two documents, the
chunker answers with an unrelated list, conversion appends a marker. -/
def env2c : RemoteEnv :=
  ⟨Except.ok (), Except.ok ["a", "b"], fun _ _ => ["CHUNKED"],
   fun s => s ++ "!", fun l => l.length, Except.ok (), "id2", Except.ok ()⟩

/-- C2 witness: in an upload run whose chunker returns `["CHUNKED"]`, the
embedding sink is nevertheless called on the converted raw documents. -/
theorem C2_witness :
    Ev.embedCall (["a", "b"].map env2c.toLangchain) env2c.freshId ∈
      (remote_worker env2c [] "src" "job" "u" "loader" "temp" "classic"
        "never" "upload" none).2.1 :=
  (C2_remote_embeds_unchunked env2c [] "src" "job" "u" "loader" "temp"
    "classic" "never" none ["a", "b"] rfl rfl).1

/-- Environment of the C4 witness run: every collaborator is healthy. -/
def env4 : RemoteEnv :=
  ⟨Except.ok (), Except.ok ["x"], fun _ l => l, fun s => s,
   fun l => l.length, Except.ok (), "id4", Except.ok ()⟩

/-- C4 witness: a sync run with the invalid id `"zzz"` raises the validation
error. -/
theorem C4_witness :
    (remote_worker env4 [] "src" "job" "u" "loader" "temp" "classic" "daily"
      "sync" (some "zzz")).2.2 =
      Except.error
        (Err.valueError "doc_id must be provided for sync operation.") :=
  (C4_sync_invalid_id env4 [] "src" "job" "u" "loader" "temp" "classic"
    "daily" (some "zzz") (by decide)).2.2.2 ["x"] rfl rfl

/-- Environment of the C9 witness run. -/
def env9 : IngestEnv :=
  ⟨Except.ok (), [], Except.ok ["a"], fun _ l => l, fun s => s,
   fun l => l.length, Except.ok (), "id9", Except.ok ()⟩

/-- C9 witness: the chunker configuration observed in a concrete
`ingest_worker` run is the fixed policy. -/
theorem C9_witness :
    (⟨"classic_chunk", 1250, 150, false⟩ : ChunkerCfg) = ingest_chunker_cfg :=
  C9_chunk_policy.2.2.2.2.1 env9 [] "inputs" [] "job" "a.md" "u" "classic"
    ⟨"classic_chunk", 1250, 150, false⟩ ["a"] ["a"] (by decide)

/-- Environment of the C10 witness run: every collaborator is healthy. -/
def env10e : RemoteEnv :=
  ⟨Except.ok (), Except.ok ["d"], fun _ l => l, fun s => s,
   fun l => l.length, Except.ok (), "idA", Except.ok ()⟩

/-- C10 witness: a run in the unknown mode `"delete"` raises the unbound
local `id` at the completion payload. -/
theorem C10_witness :
    (remote_worker env10e [] "src" "job" "u" "loader" "temp" "classic"
      "never" "delete" none).2.2 = Except.error (Err.unboundLocal "id") :=
  (C10_unknown_mode env10e [] "src" "job" "u" "loader" "temp" "classic"
    "never" "delete" none ["d"] (by decide) (by decide) rfl rfl).1

end Worker

